import Mathlib

/-!
Verification development for the preference-learning MILP builder in
`python/models.py` (class hierarchy `BaseModel`, `TwoClustersMIP`).

The Python code builds, per `fit(X, Y)` call, a mixed-integer program out of
symbolic solver expressions.  We embed that construction shallowly:

* solver decision variables (`criteria`, the four sigma slack families, and
  `binary`) become the inductive type `Var`;
* gurobipy expression trees (`Var`, `LinExpr`, `QuadExpr`) become the
  syntax tree `Expr`, with semantics `Expr.eval` under an assignment
  `Var → ℚ`;
* every `addConstr` call becomes a `Constr` (lhs, comparison, rhs), recorded
  in order in the result of `fit`;
* numpy matrices become `NPMat` (shape plus a total entry function); an
  access `X[j, i]` is the partial `NPMat.get?`, so that Python
  `IndexError` / `ValueError` exceptions are `Option.none`;
* Python floats are modelled exactly as rationals `ℚ`; the claims under
  study concern the symbolic structure of the program, not float rounding;
* the `self.sum_utilite` dictionary becomes a finitely built lookup
  function `Nat × Nat × Nat → Option Expr` (key `(0/1, k, j)`), assembled
  by the same loop order as the source;
* the external solver call (`self.m.optimize()`) is outside the embedded
  fragment: `fit` returns the assembled constraint system and objective.
-/

namespace Models

/-- Decision variables created by `TwoClustersMIP.instantiate`:
`criteria[k][i][l]` (named `u_{k}_{i}_{l}` in the source), the four slack
variable families `sigmax+_{j}`, `sigmay+_{j}`, `sigmax-_{j}`, `sigmay-_{j}`,
and the indicators `binary_{k}_{j}`. -/
inductive Var : Type where
  | u (k i l : Nat)
  | sigmaPlusX (j : Nat)
  | sigmaPlusY (j : Nat)
  | sigmaMoinsX (j : Nat)
  | sigmaMoinsY (j : Nat)
  | binary (j k : Nat)
deriving DecidableEq, Repr

/-- gurobipy expression trees: variables, float constants, and the
arithmetic the source performs on them.  A product of two variable-carrying
subtrees (which gurobipy would represent as a `QuadExpr`) is representable,
because line 231 of the source does build one. -/
inductive Expr : Type where
  | const (c : ℚ)
  | var (v : Var)
  | add (a b : Expr)
  | sub (a b : Expr)
  | mul (a b : Expr)
deriving DecidableEq, Repr

/-- Value of an expression under an assignment of rationals to the
decision variables. -/
def Expr.eval (σ : Var → ℚ) : Expr → ℚ
  | .const c => c
  | .var v => σ v
  | .add a b => a.eval σ + b.eval σ
  | .sub a b => a.eval σ - b.eval σ
  | .mul a b => a.eval σ * b.eval σ

/-- Comparison operator of a gurobipy constraint. -/
inductive Cmp : Type where
  | le
  | ge
  | eq
deriving DecidableEq, Repr

/-- One `model.addConstr(lhs <cmp> rhs)` call, kept exactly as written in
the source (left-hand side, comparison, right-hand side). -/
structure Constr : Type where
  lhs : Expr
  cmp : Cmp
  rhs : Expr
deriving DecidableEq, Repr

/-- Boolean satisfaction of a constraint under an assignment. -/
def Constr.sat (σ : Var → ℚ) (c : Constr) : Bool :=
  match c.cmp with
  | .le => decide (c.lhs.eval σ ≤ c.rhs.eval σ)
  | .ge => decide (c.rhs.eval σ ≤ c.lhs.eval σ)
  | .eq => decide (c.lhs.eval σ = c.rhs.eval σ)

/-- A constraint holds under an assignment. -/
def Constr.holds (σ : Var → ℚ) (c : Constr) : Prop :=
  c.sat σ = true

instance (σ : Var → ℚ) (c : Constr) : Decidable (c.holds σ) := by
  unfold Constr.holds; infer_instance

/-- A numpy 2-d float array: its shape and a total entry function (entries
outside the shape are junk and are never exposed: all reads go through
`NPMat.get?`). -/
structure NPMat : Type where
  rows : Nat
  cols : Nat
  entry : Nat → Nat → ℚ

/-- `A[j, i]`: in-bounds read of a matrix entry; `none` models the
`IndexError` Python raises out of bounds. -/
def NPMat.get? (A : NPMat) (j i : Nat) : Option ℚ :=
  if j < A.rows ∧ i < A.cols then some (A.entry j i) else none

/-- Read of a 1-d numpy array of length `len` held as a function (used for
the `mins` / `maxs` arrays); `none` models `IndexError`. -/
def arrGet (len : Nat) (v : Nat → ℚ) (i : Nat) : Option ℚ :=
  if i < len then some (v i) else none

/-- `np.zeros((r, c))`. -/
def zeroMat (r c : Nat) : NPMat :=
  ⟨r, c, fun _ _ => 0⟩

/-- A constant matrix (every entry is `c`), used as concrete test data. -/
def constMat (r c : Nat) (q : ℚ) : NPMat :=
  ⟨r, c, fun _ _ => q⟩

/-- Entry `(j, i)` of `np.concatenate((X, Y), axis=0)` (row-stacking). -/
def pooledEntry (X Y : NPMat) (j i : Nat) : ℚ :=
  if j < X.rows then X.entry j i else Y.entry (j - X.rows) i

/-- Column `i` minimum of the pooled matrix:
`np.concatenate((X,Y),axis=0).min(axis=0)[i]`.  Meaningful when the pooled
matrix has at least one row (`fit` guards this, as numpy does). -/
def colMin (X Y : NPMat) (i : Nat) : ℚ :=
  (List.range (X.rows + Y.rows)).foldl
    (fun a j => min a (pooledEntry X Y j i)) (pooledEntry X Y 0 i)

/-- Column `i` maximum of the pooled matrix:
`np.concatenate((X,Y),axis=0).max(axis=0)[i]`. -/
def colMax (X Y : NPMat) (i : Nat) : ℚ :=
  (List.range (X.rows + Y.rows)).foldl
    (fun a j => max a (pooledEntry X Y j i)) (pooledEntry X Y 0 i)

/-- The shape conditions under which `np.concatenate((X,Y),axis=0)` and the
subsequent `.min(axis=0)` / `.max(axis=0)` succeed: the column counts must
agree (else `ValueError`), and the reduced axis must be nonempty whenever
the reduction produces a nonempty result (else numpy raises a zero-size
reduction error). -/
def npConcatGuard (X Y : NPMat) : Option Unit :=
  if X.cols = Y.cols then
    if X.rows + Y.rows = 0 ∧ 0 < X.cols then none else some ()
  else none

/-- The hyper-parameter state set up by `TwoClustersMIP.__init__` and
`TwoClustersMIP.instantiate`: `self.L`, `self.K`, `self.n`, `self.seed`,
`self.epsilon`, `self.P`, `self.M`, `self.bigM`. -/
structure TwoClustersMIP : Type where
  L : Nat
  K : Nat
  n : Nat
  seed : Nat
  epsilon : ℚ
  P : Nat
  M : ℚ
  bigM : ℚ

/-- `TwoClustersMIP.__init__(n_pieces, n_clusters)`: `self.L = n_pieces`,
`self.K = n_clusters`, and the fixed constants `self.n = 4`,
`self.seed = 123`, `self.epsilon = 0.001`, `self.P = 2000`, `self.M = 5`;
`instantiate` additionally sets `self.bigM = 100` (never used afterwards). -/
def TwoClustersMIP.init (n_pieces n_clusters : Nat) : TwoClustersMIP :=
  ⟨n_pieces, n_clusters, 4, 123, 1/1000, 2000, 5, 100⟩

/-- Python list indexing (`xs[l]` for a list of length `len`), including
the negative-index convention: `xs[-1]` is the last element; an index out
of `[-len, len)` raises `IndexError` (`none`). -/
def pyIdx (len : Nat) (l : Int) : Option Nat :=
  if l < 0 then
    if 0 ≤ (len : Int) + l then some ((len : Int) + l).toNat else none
  else
    if l < (len : Int) then some l.toNat else none

/-- `self.criteria[k][i][l]` for an integer index `l` computed at run time:
the inner Python list has length `self.L + 1`, holding the breakpoint
variables `u[k][i][0..L]`. -/
def criteriaAt (L k i : Nat) (l : Int) : Option Expr :=
  (pyIdx (L + 1) l).map (fun idx => Expr.var (Var.u k i idx))

/-- `gurobipy.quicksum` over a Python list of expressions: a left fold of
`+` starting from the zero expression. -/
def quicksum (es : List Expr) : Expr :=
  es.foldl Expr.add (Expr.const 0)

/-- The inner function `li(i, x)` of `fit`, composed with the `int(...)`
conversion applied at its call site:
`int(np.floor(self.L * (x - mins[i]) / (maxs[i] - mins[i])))`, with the
array reads already performed (`mn`, `mx`).  Exact on rationals. -/
def li (m : TwoClustersMIP) (mn mx x : ℚ) : Int :=
  Int.floor ((m.L : ℚ) * (x - mn) / (mx - mn))

/-- The inner function `xl(i, l)` of `fit`:
`mins[i] + l * (maxs[i] - mins[i]) / self.L`, with the array reads already
performed. -/
def xl (m : TwoClustersMIP) (mn mx : ℚ) (l : Int) : ℚ :=
  mn + (l : ℚ) * (mx - mn) / (m.L : ℚ)

/-- The inner function `u_i(j, i, X, k)` of `fit` (source lines 222-231).

* `if X[j,i] == maxs[i]: return self.criteria[k][i][-1]` — the last
  breakpoint variable `u[k][i][L]` (index `-1` of a list of length `L+1`);
* otherwise `l = int(li(i, X[j,i]))`, `x_l = xl(i, l)`, `x_l1 = xl(i, l+1)`
  and the returned expression is, with the source's parenthesisation kept
  exactly,
  `(criteria[k][i][l] + (X[j,i]-x_l)/(x_l1-x_l)) * (criteria[k][i][l+1]-criteria[k][i][l])`.

`none` models the exceptions Python raises on that path: `IndexError` from
`X[j,i]` / `maxs[i]` / `mins[i]` or a criteria index out of range,
`OverflowError` / `ValueError` from `int(±inf)` / `int(nan)` when
`maxs[i] == mins[i]` (division by zero inside `li`), and
`ZeroDivisionError` inside `xl` when `self.L == 0`. -/
def u_i (m : TwoClustersMIP) (cols : Nat) (mins maxs : Nat → ℚ) (A : NPMat)
    (j i k : Nat) : Option Expr := do
  let x ← A.get? j i
  let mx ← arrGet cols maxs i
  if x = mx then
    pure (Expr.var (Var.u k i m.L))
  else do
    let mn ← arrGet cols mins i
    if mx = mn then none
    else if m.L = 0 then none
    else
      let l : Int := li m mn mx x
      let xlv : ℚ := xl m mn mx l
      let xl1 : ℚ := xl m mn mx (l + 1)
      let ul ← criteriaAt m.L k i l
      let ul1 ← criteriaAt m.L k i (l + 1)
      pure (Expr.mul (Expr.add ul (Expr.const ((x - xlv) / (xl1 - xlv))))
        (Expr.sub ul1 ul))

/-- Failure-propagating map: a Python list comprehension whose body may
raise (`none` as soon as one element raises). -/
def omap {α β : Type} (f : α → Option β) : List α → Option (List β)
  | [] => some []
  | a :: l => (f a).bind (fun b => (omap f l).bind (fun r => some (b :: r)))

/-- `quicksum([u_i(j, i, A, k) for i in range(self.n)])`: the cluster-`k`
total-utility expression of row `j` of matrix `A` (source lines 236-237). -/
def sumU (m : TwoClustersMIP) (A : NPMat) (mins maxs : Nat → ℚ)
    (k j : Nat) : Option Expr := do
  let es ← omap (fun i => u_i m A.cols mins maxs A j i k) (List.range m.n)
  pure (quicksum es)

/-- The `(k, j)` iteration order of the dictionary-filling loop of `fit`
(source lines 234-237): `k` outer over `range(K)`, `j` inner over
`range(P)`. -/
def pairsKP (K P : Nat) : List (Nat × Nat) :=
  (List.range K).flatMap (fun k => (List.range P).map (fun j => (k, j)))

/-- One iteration of the dictionary-filling loop: compute
`sum_utilite[(0,k,j)]` from `X` and `sum_utilite[(1,k,j)]` from `Y` and
store both (later writes shadow earlier ones, as for a Python dict). -/
def suStep (m : TwoClustersMIP) (X Y : NPMat) (mins maxs : Nat → ℚ)
    (d : Nat × Nat × Nat → Option Expr) (p : Nat × Nat) :
    Option (Nat × Nat × Nat → Option Expr) := do
  let ex ← sumU m X mins maxs p.1 p.2
  let ey ← sumU m Y mins maxs p.1 p.2
  pure (fun q =>
    if q = (1, p.1, p.2) then some ey
    else if q = (0, p.1, p.2) then some ex
    else d q)

/-- Failure-propagating left fold: a Python `for` loop whose body may
raise. -/
def ofold {α σ : Type} (step : σ → α → Option σ) : σ → List α → Option σ
  | s, [] => some s
  | s, a :: l => (step s a).bind (fun t => ofold step t l)

/-- The `self.sum_utilite` dictionary as assembled by the loop of source
lines 234-237, starting from the empty dict `self.sum_utilite = {}` set in
`__init__`. -/
def buildSU (m : TwoClustersMIP) (X Y : NPMat) (mins maxs : Nat → ℚ) :
    Option (Nat × Nat × Nat → Option Expr) :=
  ofold (suStep m X Y mins maxs) (fun _ => none) (pairsKP m.K m.P)

/-- The common left-hand side of the two big-M constraints of source lines
252-253:
`sum_utilite[0,k,j] - sigma_plus_x[j] + sigma_moins_x[j] - sum_utilite[1,k,j] + sigma_plus_y[j] - sigma_moins_y[j]`. -/
def bigMLhs (ex ey : Expr) (j : Nat) : Expr :=
  Expr.sub
    (Expr.add
      (Expr.sub
        (Expr.add
          (Expr.sub ex (Expr.var (Var.sigmaPlusX j)))
          (Expr.var (Var.sigmaMoinsX j)))
        ey)
      (Expr.var (Var.sigmaPlusY j)))
    (Expr.var (Var.sigmaMoinsY j))

/-- The two `addConstr` calls of source lines 252-253 for pair `j` and
cluster `k`, given the stored expressions `ex = sum_utilite[0,k,j]` and
`ey = sum_utilite[1,k,j]`:
`lhs >= -self.M*(1-self.binary[j][k])` and
`lhs <= self.M*self.binary[j][k] - self.epsilon`. -/
def bigMPair (m : TwoClustersMIP) (ex ey : Expr) (j k : Nat) : List Constr :=
  [⟨bigMLhs ex ey j, Cmp.ge,
      Expr.mul (Expr.const (-m.M))
        (Expr.sub (Expr.const 1) (Expr.var (Var.binary j k)))⟩,
   ⟨bigMLhs ex ey j, Cmp.le,
      Expr.sub (Expr.mul (Expr.const m.M) (Expr.var (Var.binary j k)))
        (Expr.const m.epsilon)⟩]

/-- The big-M constraint loop of source lines 250-253: `j` outer over
`range(P)`, `k` inner over `range(K)`, reading the two stored
`sum_utilite` expressions back from the dictionary. -/
def bigMConstrs (m : TwoClustersMIP) (d : Nat × Nat × Nat → Option Expr) :
    Option (List Constr) := do
  let blocks ← omap (fun j => do
    let inner ← omap (fun k => do
      let ex ← d (0, k, j)
      let ey ← d (1, k, j)
      pure (bigMPair m ex ey j k)) (List.range m.K)
    pure inner.flatten) (List.range m.P)
  pure blocks.flatten

/-- The monotonicity constraint of source line 258 for cluster `k`,
feature `i`, segment `l`:
`criteria[k][i][l+1] - criteria[k][i][l] >= epsilon`. -/
def monoC (m : TwoClustersMIP) (k i l : Nat) : Constr :=
  ⟨Expr.sub (Expr.var (Var.u k i (l + 1))) (Expr.var (Var.u k i l)),
    Cmp.ge, Expr.const m.epsilon⟩

/-- The monotonicity loop of source lines 255-258 (`k`, then `i`, then
`l in range(self.L)`). -/
def monoConstrs (m : TwoClustersMIP) : List Constr :=
  (List.range m.K).flatMap (fun k =>
    (List.range m.n).flatMap (fun i =>
      (List.range m.L).map (fun l => monoC m k i l)))

/-- The zero-point constraint of source line 262:
`criteria[k][i][0] == 0`. -/
def zeroC (k i : Nat) : Constr :=
  ⟨Expr.var (Var.u k i 0), Cmp.eq, Expr.const 0⟩

/-- The zero-point loop of source lines 260-262. -/
def zeroConstrs (m : TwoClustersMIP) : List Constr :=
  (List.range m.K).flatMap (fun k =>
    (List.range m.n).map (fun i => zeroC k i))

/-- The normalisation constraint of source line 265 for cluster `k`:
`quicksum([criteria[k][i][self.L-1] for i in range(self.n)]) == 1`.
The Python index `self.L - 1` into the list of length `L+1` is the natural
subtraction `m.L - 1`: for `L >= 1` it is the second-to-last breakpoint
variable `u[k][i][L-1]`, and for `L = 0` the Python index `-1` denotes the
sole element `u[k][i][0]`, which is also `m.L - 1 = 0`. -/
def normC (m : TwoClustersMIP) (k : Nat) : Constr :=
  ⟨quicksum ((List.range m.n).map (fun i => Expr.var (Var.u k i (m.L - 1)))),
    Cmp.eq, Expr.const 1⟩

/-- The normalisation loop of source lines 264-265: exactly one constraint
per cluster. -/
def normConstrs (m : TwoClustersMIP) : List Constr :=
  (List.range m.K).map (fun k => normC m k)

/-- The coverage constraint of source line 268 for pair `j`:
`quicksum([binary[j][k] for k in range(self.K)]) >= 1`. -/
def coverC (m : TwoClustersMIP) (j : Nat) : Constr :=
  ⟨quicksum ((List.range m.K).map (fun k => Expr.var (Var.binary j k))),
    Cmp.ge, Expr.const 1⟩

/-- The coverage loop of source lines 267-268. -/
def coverConstrs (m : TwoClustersMIP) : List Constr :=
  (List.range m.P).map (fun j => coverC m j)

/-- The objective of source line 270 (to be minimised):
`quicksum(sigma_plus_x[j] + sigma_moins_x[j] + sigma_plus_y[j] + sigma_moins_y[j] for j in range(self.P))`. -/
def objExpr (m : TwoClustersMIP) : Expr :=
  quicksum ((List.range m.P).map (fun j =>
    Expr.add
      (Expr.add
        (Expr.add (Expr.var (Var.sigmaPlusX j)) (Expr.var (Var.sigmaMoinsX j)))
        (Expr.var (Var.sigmaPlusY j)))
      (Expr.var (Var.sigmaMoinsY j))))

/-- The state `fit` leaves behind for later method calls: the
`self.sum_utilite` dictionary, the constraints added to the solver model
(in source order), and the objective expression.  Solving itself
(`self.m.optimize()`) is delegated to the external solver and is outside
the embedded fragment. -/
structure FitResult : Type where
  su : Nat × Nat × Nat → Option Expr
  constrs : List Constr
  objective : Expr

/-- A default `FitResult` (used only as the `Option.getD` fallback in
closed witness statements). -/
def dfltRes : FitResult :=
  ⟨fun _ => none, [], Expr.const 0⟩

/-- The stored expression `sum_utilite[(0, k, j)]` of a fit result (the
cluster-`k` utility of `X_j`), with a dummy fallback for absent keys. -/
def suX (res : FitResult) (k j : Nat) : Expr :=
  (res.su (0, k, j)).getD (Expr.const 0)

/-- The stored expression `sum_utilite[(1, k, j)]` of a fit result (the
cluster-`k` utility of `Y_j`), with a dummy fallback for absent keys. -/
def suY (res : FitResult) (k j : Nat) : Expr :=
  (res.su (1, k, j)).getD (Expr.const 0)

/-- `TwoClustersMIP.fit(X, Y)` (source lines 202-275): pooled per-column
minima and maxima, the `sum_utilite` dictionary, the big-M disjunctive
constraints, the monotonicity / zero-point / normalisation / coverage
constraints, and the slack-sum objective, assembled in source order.
`none` models an uncaught Python exception along the way. -/
def fit (m : TwoClustersMIP) (X Y : NPMat) : Option FitResult := do
  let _ ← npConcatGuard X Y
  let mins : Nat → ℚ := colMin X Y
  let maxs : Nat → ℚ := colMax X Y
  let d ← buildSU m X Y mins maxs
  let bigm ← bigMConstrs m d
  pure ⟨d,
    bigm ++ monoConstrs m ++ zeroConstrs m ++ normConstrs m ++ coverConstrs m,
    objExpr m⟩

/-- `TwoClustersMIP.predict_utility(X)` (source lines 277-296), given the
post-`fit` state `res`: it allocates `np.zeros((n_samples, self.K))`,
runs a loop that only *prints* `self.sum_utilite[0,k,j]` and
`self.criteria[k][i][0]` (the dictionary read can raise `KeyError`,
modelled by the `Option` bind; the `criteria` read is always in range),
never writes `decision_function`, and returns it — i.e. the all-zeros
matrix. -/
def predict_utility (m : TwoClustersMIP) (res : FitResult) (X : NPMat) :
    Option NPMat := do
  let _ ← omap (fun k =>
    omap (fun i =>
      omap (fun j => do
        let _ ← res.su (0, k, j)
        pure (Var.u k i 0)) (List.range m.P)) (List.range m.n))
    (List.range m.K)
  pure (zeroMat X.rows m.K)

/-- `(X_u - Y_u > 0).astype(int)` from `BaseModel.predict_preference`
(source line 63), as a function of the two utility matrices. -/
def predict_preference_mat (Xu Yu : NPMat) : NPMat :=
  ⟨Xu.rows, Xu.cols, fun j k => if 0 < Xu.entry j k - Yu.entry j k then 1 else 0⟩

/-- `np.argmax` along one row of length `len`: index of the maximal value,
the first such index on ties. -/
def npArgmax (v : Nat → ℚ) (len : Nat) : Nat :=
  (List.range len).foldl (fun best c => if v best < v c then c else best) 0

/-- `np.argmax(X_u - Y_u, axis=1)` from `BaseModel.predict_cluster`
(source line 86), as a function of the two utility matrices, per sample
row `j`. -/
def predict_cluster_mat (Xu Yu : NPMat) (j : Nat) : Nat :=
  npArgmax (fun k => Xu.entry j k - Yu.entry j k) Xu.cols

/-- `BaseModel.predict_preference(X, Y)` for a model whose
`predict_utility` is `pu`. -/
def predict_preference (pu : NPMat → NPMat) (X Y : NPMat) : NPMat :=
  predict_preference_mat (pu X) (pu Y)

/-- `BaseModel.predict_cluster(X, Y)` for a model whose `predict_utility`
is `pu`, per sample row `j`. -/
def predict_cluster (pu : NPMat → NPMat) (X Y : NPMat) (j : Nat) : Nat :=
  predict_cluster_mat (pu X) (pu Y) j

/-- Modelled from the spec: the linear-interpolation value the spec
prescribes for an interior feature value,
`u[k][i][l] + (x - x_l)/(x_{l+1} - x_l) * (u[k][i][l+1] - u[k][i][l])`,
written on the values `ul = u[k][i][l]`, `ul1 = u[k][i][l+1]` and the
breakpoint coordinates `xlv = x_l`, `xl1 = x_{l+1}`.  This is the claimed
behaviour, to be compared with what `u_i` actually builds. -/
def specInterp (ul ul1 x xlv xl1 : ℚ) : ℚ :=
  ul + (x - xlv) / (xl1 - xlv) * (ul1 - ul)

/-! Concrete instances used in counterexamples, failing-input evaluations
and witnesses.  `mS` is a deliberately small hyper-parameter state (one
pair, one cluster, one feature, one piece) so that a full `fit` run can be
evaluated inside closed statements; `m5` and `m2` are states produced by
the actual constructor `TwoClustersMIP.init`. -/

/-- A small hyper-parameter state: `L = K = n = P = 1`, same `seed`,
`epsilon`, `M`, `bigM` as the source constants. -/
def mS : TwoClustersMIP :=
  ⟨1, 1, 1, 123, 1/1000, 1, 5, 100⟩

/-- A 1-by-1 all-zeros data matrix for the small state. -/
def XS : NPMat :=
  constMat 1 1 0

/-- The constructed state `TwoClustersMIP(n_pieces=2, n_clusters=2)`. -/
def m2 : TwoClustersMIP :=
  TwoClustersMIP.init 2 2

/-- The constructed state `TwoClustersMIP(n_pieces=5, n_clusters=2)`. -/
def m5 : TwoClustersMIP :=
  TwoClustersMIP.init 5 2

/-- One data row, four features, all zero. -/
def X1 : NPMat :=
  constMat 1 4 0

/-- One data row, four features: feature 0 has value 1, the rest 0. -/
def Y1 : NPMat :=
  ⟨1, 4, fun _ i => if i = 0 then 1 else 0⟩

/-- Assignment for the C1 failing-input evaluation:
`u[0][0][0] = 1/2`, `u[0][0][1] = 1`, everything else `0`. -/
def sig1 : Var → ℚ :=
  fun v =>
    match v with
    | .u 0 0 0 => 1/2
    | .u 0 0 1 => 1
    | _ => 0

/-- Assignment for the C2 counterexample: `u[0][i][4] = 1/4` for every
feature `i`, everything else `0` (in particular `u[0][i][5] = 0`). -/
def sig2 : Var → ℚ :=
  fun v =>
    match v with
    | .u 0 _ 4 => 1/4
    | _ => 0

/-- The cluster-0 total-utility expression produced by `fit` on data whose
feature values all sit at the pooled maximum (each `u_i` returns the last
breakpoint variable): `quicksum` of `u[0][i][5]` over the four features of
`m5`. -/
def exC3 : Expr :=
  quicksum ((List.range 4).map (fun i => Expr.var (Var.u 0 i 5)))

/-- Assignment for the C3 counterexample: `sigma_plus_x[0] = 5`,
`binary[0][0] = 1`, everything else `0`. -/
def sig3 : Var → ℚ :=
  fun v =>
    match v with
    | .sigmaPlusX 0 => 5
    | .binary 0 0 => 1
    | _ => 0

/-- 2000 rows, 4 features, all zero: every feature is degenerate
(`max_i == min_i`). -/
def X5 : NPMat :=
  constMat 2000 4 0

/-- 2500 rows, 4 features, all zero. -/
def X6 : NPMat :=
  constMat 2500 4 0

/-- 2000 rows, 4 features, all zero. -/
def Y6 : NPMat :=
  constMat 2000 4 0

/-- 1 row, 4 features, all zero: fewer rows than `P = 2000`. -/
def X7 : NPMat :=
  constMat 1 4 0

/-- 1-by-1 matrix with the single value 3 (so 3 is its pooled maximum). -/
def A9 : NPMat :=
  constMat 1 1 3

/-- 1-row batch (distinguished from `Y10` by its row count). -/
def X10 : NPMat :=
  constMat 1 2 0

/-- 2-row batch (distinguished from `X10` by its row count). -/
def Y10 : NPMat :=
  constMat 2 2 0

/-- A `predict_utility`-style function for the C10 scenario: on a 1-row
batch the two cluster utilities are `3/10` and `1/10`; on any other batch
they are `0`.  Hence the margins of `X10` against `Y10` are `3/10` for
cluster 0 and `1/10` for cluster 1. -/
def pu10 : NPMat → NPMat :=
  fun A => ⟨A.rows, 2, fun _ k =>
    if A.rows = 1 then (if k = 0 then 3/10 else 1/10) else 0⟩

/-! Basic semantic lemmas. -/

theorem obind_some {α β : Type} (a : α) (f : α → Option β) :
    (some a >>= f) = f a := rfl

theorem obind_none {α β : Type} (f : α → Option β) :
    ((none : Option α) >>= f) = none := rfl

theorem holds_le_iff (σ : Var → ℚ) (l r : Expr) :
    (Constr.mk l Cmp.le r).holds σ ↔ l.eval σ ≤ r.eval σ := by
  simp [Constr.holds, Constr.sat]

theorem holds_ge_iff (σ : Var → ℚ) (l r : Expr) :
    (Constr.mk l Cmp.ge r).holds σ ↔ r.eval σ ≤ l.eval σ := by
  simp [Constr.holds, Constr.sat]

theorem holds_eq_iff (σ : Var → ℚ) (l r : Expr) :
    (Constr.mk l Cmp.eq r).holds σ ↔ l.eval σ = r.eval σ := by
  simp [Constr.holds, Constr.sat]

theorem foldl_add_eval (σ : Var → ℚ) :
    ∀ (es : List Expr) (acc : Expr),
      (es.foldl Expr.add acc).eval σ
        = acc.eval σ + (es.map (fun e => e.eval σ)).sum := by
  intro es
  induction es with
  | nil => intro acc; simp
  | cons e t ih =>
    intro acc
    rw [List.foldl_cons, ih (acc.add e)]
    simp [Expr.eval]
    ring

theorem quicksum_eval (σ : Var → ℚ) (es : List Expr) :
    (quicksum es).eval σ = (es.map (fun e => e.eval σ)).sum := by
  rw [quicksum, foldl_add_eval]
  simp [Expr.eval]

/-! Lemmas about `omap` (success, failure, membership). -/

theorem omap_isSome {α β : Type} (f : α → Option β) :
    ∀ (l : List α), (∀ a ∈ l, (f a).isSome) → (omap f l).isSome := by
  intro l
  induction l with
  | nil => intro _; rfl
  | cons a t ih =>
    intro h
    obtain ⟨b, hb⟩ := Option.isSome_iff_exists.mp (h a (by simp))
    obtain ⟨r, hr⟩ := Option.isSome_iff_exists.mp
      (ih (fun x hx => h x (by simp [hx])))
    rw [omap, hb, hr]
    rfl

theorem omap_eq_none {α β : Type} (f : α → Option β) :
    ∀ (l : List α) (a : α), a ∈ l → f a = none → omap f l = none := by
  intro l
  induction l with
  | nil => intro a ha; exact absurd ha (by simp)
  | cons x t ih =>
    intro a ha hfa
    rw [omap]
    rcases List.mem_cons.mp ha with h | h
    · subst h
      rw [hfa]
      rfl
    · cases hfx : f x with
      | none => rfl
      | some b => simp [ih a h hfa]

theorem omap_mem {α β : Type} (f : α → Option β) :
    ∀ (l : List α) (r : List β), omap f l = some r →
      ∀ a ∈ l, ∃ b, f a = some b ∧ b ∈ r := by
  intro l
  induction l with
  | nil => intro r _ a ha; exact absurd ha (by simp)
  | cons x t ih =>
    intro r hr a ha
    rw [omap] at hr
    simp only [Option.bind_eq_some, Option.some.injEq] at hr
    obtain ⟨b, hb, rs, hrs, hcons⟩ := hr
    rcases List.mem_cons.mp ha with h | h
    · subst h
      exact ⟨b, hb, by simp [← hcons]⟩
    · obtain ⟨c, hc, hcr⟩ := ih rs hrs a h
      exact ⟨c, hc, by simp [← hcons, hcr]⟩

/-! Lemmas about `ofold` (the failure-propagating `for` loop). -/

theorem ofold_isSome {α σ : Type} (step : σ → α → Option σ) :
    ∀ (l : List α) (s : σ), (∀ t a, a ∈ l → (step t a).isSome) →
      (ofold step s l).isSome := by
  intro l
  induction l with
  | nil => intro s _; rfl
  | cons a t ih =>
    intro s h
    obtain ⟨u, hu⟩ := Option.isSome_iff_exists.mp (h s a (by simp))
    rw [ofold, hu]
    exact ih u (fun v b hb => h v b (by simp [hb]))

theorem ofold_eq_none {α σ : Type} (step : σ → α → Option σ) :
    ∀ (l : List α) (s : σ) (p : α), p ∈ l → (∀ t, step t p = none) →
      ofold step s l = none := by
  intro l
  induction l with
  | nil => intro s p hp; exact absurd hp (by simp)
  | cons a t ih =>
    intro s p hp hfail
    rw [ofold]
    rcases List.mem_cons.mp hp with h | h
    · subst h
      rw [hfail s]
      rfl
    · cases hsa : step s a with
      | none => rfl
      | some u => exact ih u p h hfail

/-- `(k, j) ∈ pairsKP K P` exactly when both indices are in range. -/
theorem mem_pairsKP (K P k j : Nat) :
    (k, j) ∈ pairsKP K P ↔ k < K ∧ j < P := by
  simp [pairsKP, List.mem_flatMap]

/-! Lemmas about the `sum_utilite` dictionary fold. -/

theorem suStep_none_left (m : TwoClustersMIP) (X Y : NPMat)
    (mins maxs : Nat → ℚ) (d : Nat × Nat × Nat → Option Expr)
    (p : Nat × Nat) (h : sumU m X mins maxs p.1 p.2 = none) :
    suStep m X Y mins maxs d p = none := by
  rw [suStep, h]
  rfl

theorem suStep_none_right (m : TwoClustersMIP) (X Y : NPMat)
    (mins maxs : Nat → ℚ) (d : Nat × Nat × Nat → Option Expr)
    (p : Nat × Nat) (h : sumU m Y mins maxs p.1 p.2 = none) :
    suStep m X Y mins maxs d p = none := by
  rw [suStep]
  cases hx : sumU m X mins maxs p.1 p.2 with
  | none => rfl
  | some ex => simp [hx, h]

theorem suStep_isSome (m : TwoClustersMIP) (X Y : NPMat)
    (mins maxs : Nat → ℚ) (d : Nat × Nat × Nat → Option Expr)
    (p : Nat × Nat) (hx : (sumU m X mins maxs p.1 p.2).isSome)
    (hy : (sumU m Y mins maxs p.1 p.2).isSome) :
    (suStep m X Y mins maxs d p).isSome := by
  obtain ⟨ex, hex⟩ := Option.isSome_iff_exists.mp hx
  obtain ⟨ey, hey⟩ := Option.isSome_iff_exists.mp hy
  rw [suStep, hex, hey]
  rfl

theorem ofold_suStep_preserve (m : TwoClustersMIP) (X Y : NPMat)
    (mins maxs : Nat → ℚ) (k j : Nat) :
    ∀ (l : List (Nat × Nat)) (d e : Nat × Nat × Nat → Option Expr),
      ofold (suStep m X Y mins maxs) d l = some e →
      (∀ p ∈ l, p ≠ (k, j)) →
      ∀ t, e (t, k, j) = d (t, k, j) := by
  intro l
  induction l with
  | nil =>
    intro d e he _ t
    rw [ofold] at he
    cases he
    rfl
  | cons p tl ih =>
    intro d e he hne t
    obtain ⟨p1, p2⟩ := p
    rw [ofold] at he
    obtain ⟨d1, hd1, he2⟩ := Option.bind_eq_some.mp he
    have hstep :
        e (t, k, j) = d1 (t, k, j) :=
      ih d1 e he2 (fun q hq => hne q (by simp [hq])) t
    rw [hstep]
    rw [suStep] at hd1
    obtain ⟨ex, _, rest⟩ := Option.bind_eq_some.mp hd1
    obtain ⟨ey, _, hfn⟩ := Option.bind_eq_some.mp rest
    have hfn2 := Option.some.inj hfn
    rw [← hfn2]
    have hp : ¬(p1 = k ∧ p2 = j) := by
      intro hq
      exact hne (p1, p2) (by simp) (by simp [hq.1, hq.2])
    have h1 : ((t, k, j) : Nat × Nat × Nat) ≠ (1, p1, p2) := by
      intro hq
      simp only [Prod.mk.injEq] at hq
      exact hp ⟨hq.2.1.symm, hq.2.2.symm⟩
    have h0 : ((t, k, j) : Nat × Nat × Nat) ≠ (0, p1, p2) := by
      intro hq
      simp only [Prod.mk.injEq] at hq
      exact hp ⟨hq.2.1.symm, hq.2.2.symm⟩
    simp [h1, h0]

theorem ofold_suStep_some (m : TwoClustersMIP) (X Y : NPMat)
    (mins maxs : Nat → ℚ) (k j : Nat) :
    ∀ (l : List (Nat × Nat)) (d e : Nat × Nat × Nat → Option Expr),
      ofold (suStep m X Y mins maxs) d l = some e →
      (k, j) ∈ l →
      ∃ ex ey, sumU m X mins maxs k j = some ex ∧
        sumU m Y mins maxs k j = some ey ∧
        e (0, k, j) = some ex ∧ e (1, k, j) = some ey := by
  intro l
  induction l with
  | nil =>
    intro d e _ hm
    exact absurd hm (by simp)
  | cons p tl ih =>
    intro d e he hm
    rw [ofold] at he
    obtain ⟨d1, hd1, he2⟩ := Option.bind_eq_some.mp he
    by_cases hmem : (k, j) ∈ tl
    · exact ih d1 e he2 hmem
    · have hp : p = (k, j) := by
        rcases List.mem_cons.mp hm with h | h
        · exact h.symm
        · exact absurd h hmem
      subst hp
      rw [suStep] at hd1
      obtain ⟨ex, hex, rest⟩ := Option.bind_eq_some.mp hd1
      obtain ⟨ey, hey, hfn⟩ := Option.bind_eq_some.mp rest
      have hfn2 := Option.some.inj hfn
      have hpres :=
        ofold_suStep_preserve m X Y mins maxs k j tl d1 e he2
          (fun q hq => by
            intro hqe
            exact hmem (hqe ▸ hq))
      refine ⟨ex, ey, hex, hey, ?_, ?_⟩
      · rw [hpres 0, ← hfn2]
        simp
      · rw [hpres 1, ← hfn2]
        simp

/-- Completeness of the assembled dictionary: a successful `buildSU` holds
an expression under every key `(0, k, j)` and `(1, k, j)` with `k < K`,
`j < P` — these are the keys the later loops read. -/
theorem buildSU_some (m : TwoClustersMIP) (X Y : NPMat)
    (mins maxs : Nat → ℚ) (d : Nat × Nat × Nat → Option Expr)
    (h : buildSU m X Y mins maxs = some d) (k j : Nat)
    (hk : k < m.K) (hj : j < m.P) :
    ∃ ex ey, sumU m X mins maxs k j = some ex ∧
      sumU m Y mins maxs k j = some ey ∧
      d (0, k, j) = some ex ∧ d (1, k, j) = some ey := by
  rw [buildSU] at h
  exact ofold_suStep_some m X Y mins maxs k j (pairsKP m.K m.P) _ d h
    ((mem_pairsKP m.K m.P k j).mpr ⟨hk, hj⟩)

/-- Extraction of the two big-M constraints the builder emits for a pair
`j` and cluster `k`. -/
theorem bigMConstrs_mem (m : TwoClustersMIP)
    (d : Nat × Nat × Nat → Option Expr) (bs : List Constr)
    (hbs : bigMConstrs m d = some bs) (j k : Nat)
    (hj : j < m.P) (hk : k < m.K) :
    ∃ ex ey, d (0, k, j) = some ex ∧ d (1, k, j) = some ey ∧
      ∀ c ∈ bigMPair m ex ey j k, c ∈ bs := by
  rw [bigMConstrs] at hbs
  obtain ⟨blocks, hblocks, hflat⟩ := Option.bind_eq_some.mp hbs
  have hbs2 : bs = blocks.flatten := (Option.some.inj hflat).symm
  obtain ⟨block, hblock, hbmem⟩ :=
    omap_mem _ _ _ hblocks j (List.mem_range.mpr hj)
  obtain ⟨inner, hinner, hbl⟩ := Option.bind_eq_some.mp hblock
  have hbl2 : block = inner.flatten := (Option.some.inj hbl).symm
  obtain ⟨pairc, hpairc, hpmem⟩ :=
    omap_mem _ _ _ hinner k (List.mem_range.mpr hk)
  obtain ⟨ex, hex, rest⟩ := Option.bind_eq_some.mp hpairc
  obtain ⟨ey, hey, hpc⟩ := Option.bind_eq_some.mp rest
  have hpc2 : pairc = bigMPair m ex ey j k := (Option.some.inj hpc).symm
  refine ⟨ex, ey, hex, hey, fun c hc => ?_⟩
  rw [hbs2]
  refine List.mem_flatten.mpr ⟨block, hbmem, ?_⟩
  rw [hbl2]
  refine List.mem_flatten.mpr ⟨pairc, hpmem, ?_⟩
  rw [hpc2]
  exact hc

/-- Inversion of a successful `fit`: the dictionary build and the big-M
build both succeeded, and the result is their assembly with the four
data-independent constraint groups, in source order. -/
theorem fit_some_inv (m : TwoClustersMIP) (X Y : NPMat) (res : FitResult)
    (h : fit m X Y = some res) :
    ∃ d bigm, buildSU m X Y (colMin X Y) (colMax X Y) = some d ∧
      bigMConstrs m d = some bigm ∧
      res = ⟨d, bigm ++ monoConstrs m ++ zeroConstrs m ++ normConstrs m
        ++ coverConstrs m, objExpr m⟩ := by
  rw [fit] at h
  obtain ⟨u, hu, h2⟩ := Option.bind_eq_some.mp h
  obtain ⟨d, hd, h3⟩ := Option.bind_eq_some.mp h2
  obtain ⟨bigm, hbigm, h4⟩ := Option.bind_eq_some.mp h3
  exact ⟨d, bigm, hd, hbigm, (Option.some.inj h4).symm⟩

/-! Constant test matrices: pooled extrema. -/

theorem pooledEntry_const (r1 r2 w : Nat) (q : ℚ) (j i : Nat) :
    pooledEntry (constMat r1 w q) (constMat r2 w q) j i = q := by
  rw [pooledEntry]
  simp [constMat]

theorem foldl_min_const (q : ℚ) (g : Nat → ℚ) (hg : ∀ j, g j = q) :
    ∀ (l : List Nat), l.foldl (fun a j => min a (g j)) q = q := by
  intro l
  induction l with
  | nil => rfl
  | cons a t ih =>
    rw [List.foldl_cons, hg a, min_self]
    exact ih

theorem foldl_max_const (q : ℚ) (g : Nat → ℚ) (hg : ∀ j, g j = q) :
    ∀ (l : List Nat), l.foldl (fun a j => max a (g j)) q = q := by
  intro l
  induction l with
  | nil => rfl
  | cons a t ih =>
    rw [List.foldl_cons, hg a, max_self]
    exact ih

theorem colMin_const (r1 r2 w : Nat) (q : ℚ) (i : Nat) :
    colMin (constMat r1 w q) (constMat r2 w q) i = q := by
  rw [colMin, pooledEntry_const r1 r2 w q 0 i]
  exact foldl_min_const q _ (fun j => pooledEntry_const r1 r2 w q j i) _

theorem colMax_const (r1 r2 w : Nat) (q : ℚ) (i : Nat) :
    colMax (constMat r1 w q) (constMat r2 w q) i = q := by
  rw [colMax, pooledEntry_const r1 r2 w q 0 i]
  exact foldl_max_const q _ (fun j => pooledEntry_const r1 r2 w q j i) _

/-! Branch lemmas for `u_i`. -/

theorem u_i_none_oob (m : TwoClustersMIP) (cols : Nat)
    (mins maxs : Nat → ℚ) (A : NPMat) (j i k : Nat)
    (h : A.get? j i = none) :
    u_i m cols mins maxs A j i k = none := by
  rw [u_i, h]
  rfl

theorem u_i_max (m : TwoClustersMIP) (cols : Nat) (mins maxs : Nat → ℚ)
    (A : NPMat) (j i k : Nat) (x : ℚ) (hx : A.get? j i = some x)
    (hi : i < cols) (hmx : x = maxs i) :
    u_i m cols mins maxs A j i k = some (Expr.var (Var.u k i m.L)) := by
  subst hmx
  rw [u_i, hx]
  simp only [obind_some]
  rw [arrGet, if_pos hi]
  simp only [obind_some]
  simp

theorem pyIdx_nonneg (len : Nat) (l : Int) (h0 : 0 ≤ l)
    (h1 : l < (len : Int)) :
    pyIdx len l = some l.toNat := by
  rw [pyIdx, if_neg (by omega), if_pos h1]

theorem criteriaAt_nonneg (L k i : Nat) (l : Int) (h0 : 0 ≤ l)
    (h1 : l ≤ (L : Int)) :
    criteriaAt L k i l = some (Expr.var (Var.u k i l.toNat)) := by
  rw [criteriaAt, pyIdx_nonneg (L + 1) l h0 (by push_cast; omega)]
  rfl

theorem u_i_interior (m : TwoClustersMIP) (cols : Nat)
    (mins maxs : Nat → ℚ) (A : NPMat) (j i k : Nat) (x : ℚ)
    (hx : A.get? j i = some x) (hi : i < cols) (hne : x ≠ maxs i)
    (hd : maxs i ≠ mins i) (hL : m.L ≠ 0)
    (h0 : 0 ≤ li m (mins i) (maxs i) x)
    (h1 : li m (mins i) (maxs i) x < (m.L : Int)) :
    u_i m cols mins maxs A j i k =
      some (Expr.mul
        (Expr.add (Expr.var (Var.u k i (li m (mins i) (maxs i) x).toNat))
          (Expr.const
            ((x - xl m (mins i) (maxs i) (li m (mins i) (maxs i) x))
              / (xl m (mins i) (maxs i) (li m (mins i) (maxs i) x + 1)
                - xl m (mins i) (maxs i) (li m (mins i) (maxs i) x)))))
        (Expr.sub
          (Expr.var (Var.u k i (li m (mins i) (maxs i) x + 1).toNat))
          (Expr.var (Var.u k i (li m (mins i) (maxs i) x).toNat)))) := by
  rw [u_i, hx]
  simp only [obind_some]
  rw [arrGet, if_pos hi]
  simp only [obind_some]
  rw [if_neg hne]
  rw [arrGet, if_pos hi]
  simp only [obind_some]
  rw [if_neg hd, if_neg hL]
  rw [criteriaAt_nonneg m.L k i _ h0 (le_of_lt h1),
    criteriaAt_nonneg m.L k i _ (by omega) (by omega)]
  simp only [obind_some]
  rfl

/-! Lemmas for `sumU`. -/

theorem sumU_isSome (m : TwoClustersMIP) (A : NPMat)
    (mins maxs : Nat → ℚ) (k j : Nat)
    (h : ∀ i ∈ List.range m.n, (u_i m A.cols mins maxs A j i k).isSome) :
    (sumU m A mins maxs k j).isSome := by
  rw [sumU]
  obtain ⟨es, hes⟩ := Option.isSome_iff_exists.mp (omap_isSome _ _ h)
  rw [hes]
  rfl

theorem sumU_none (m : TwoClustersMIP) (A : NPMat)
    (mins maxs : Nat → ℚ) (k j i : Nat) (hi : i ∈ List.range m.n)
    (h : u_i m A.cols mins maxs A j i k = none) :
    sumU m A mins maxs k j = none := by
  rw [sumU, omap_eq_none _ (List.range m.n) i hi h]
  rfl

/-! Failure propagation through `buildSU` and `fit`. -/

theorem buildSU_none_left (m : TwoClustersMIP) (X Y : NPMat)
    (mins maxs : Nat → ℚ) (k0 j0 : Nat)
    (hmem : (k0, j0) ∈ pairsKP m.K m.P)
    (h : sumU m X mins maxs k0 j0 = none) :
    buildSU m X Y mins maxs = none := by
  rw [buildSU]
  exact ofold_eq_none _ (pairsKP m.K m.P) _ (k0, j0) hmem
    (fun t => suStep_none_left m X Y mins maxs t (k0, j0) h)

theorem buildSU_none_right (m : TwoClustersMIP) (X Y : NPMat)
    (mins maxs : Nat → ℚ) (k0 j0 : Nat)
    (hmem : (k0, j0) ∈ pairsKP m.K m.P)
    (h : sumU m Y mins maxs k0 j0 = none) :
    buildSU m X Y mins maxs = none := by
  rw [buildSU]
  exact ofold_eq_none _ (pairsKP m.K m.P) _ (k0, j0) hmem
    (fun t => suStep_none_right m X Y mins maxs t (k0, j0) h)

theorem fit_none_of_buildSU (m : TwoClustersMIP) (X Y : NPMat)
    (h : buildSU m X Y (colMin X Y) (colMax X Y) = none) :
    fit m X Y = none := by
  rw [fit]
  cases hg : npConcatGuard X Y with
  | none => rfl
  | some u => simp [hg, h]

theorem fit_none_of_guard (m : TwoClustersMIP) (X Y : NPMat)
    (h : npConcatGuard X Y = none) :
    fit m X Y = none := by
  rw [fit, h]
  rfl

/-- `fit` completes on constant data matrices of sufficient shape: with
every pooled column extremum equal to the constant entry, every `u_i`
call takes the `X[j,i] == maxs[i]` branch. -/
theorem fit_const_isSome (m : TwoClustersMIP) (r1 r2 w : Nat) (q : ℚ)
    (h1 : m.P ≤ r1) (h2 : m.P ≤ r2) (h3 : m.n ≤ w) (hr : 1 ≤ r1) :
    (fit m (constMat r1 w q) (constMat r2 w q)).isSome := by
  have hguard : npConcatGuard (constMat r1 w q) (constMat r2 w q)
      = some () := by
    rw [npConcatGuard]
    rw [if_pos (show (constMat r1 w q).cols = (constMat r2 w q).cols
      from rfl)]
    rw [if_neg]
    intro hcon
    have hrows : (constMat r1 w q).rows = r1 := rfl
    rw [hrows] at hcon
    omega
  have hget : ∀ (r : Nat), m.P ≤ r → ∀ j i : Nat, j < m.P →
      i ∈ List.range m.n → (constMat r w q).get? j i = some q := by
    intro r hPr j i hj hi
    have hjr : j < (constMat r w q).rows := lt_of_lt_of_le hj hPr
    have hiw : i < (constMat r w q).cols :=
      lt_of_lt_of_le (List.mem_range.mp hi) h3
    rw [NPMat.get?, if_pos ⟨hjr, hiw⟩]
    rfl
  have hu : ∀ (r : Nat), m.P ≤ r → ∀ k j i : Nat, j < m.P →
      i ∈ List.range m.n →
      (u_i m (constMat r w q).cols
        (colMin (constMat r1 w q) (constMat r2 w q))
        (colMax (constMat r1 w q) (constMat r2 w q))
        (constMat r w q) j i k).isSome := by
    intro r hPr k j i hj hi
    have hiw : i < (constMat r w q).cols :=
      lt_of_lt_of_le (List.mem_range.mp hi) h3
    rw [u_i_max m ((constMat r w q).cols)
      (colMin (constMat r1 w q) (constMat r2 w q))
      (colMax (constMat r1 w q) (constMat r2 w q))
      (constMat r w q) j i k q (hget r hPr j i hj hi) hiw
      (colMax_const r1 r2 w q i).symm]
    rfl
  have hbuild : (buildSU m (constMat r1 w q) (constMat r2 w q)
      (colMin (constMat r1 w q) (constMat r2 w q))
      (colMax (constMat r1 w q) (constMat r2 w q))).isSome := by
    rw [buildSU]
    apply ofold_isSome
    intro t p hp
    obtain ⟨k, j⟩ := p
    have hkj := (mem_pairsKP m.K m.P k j).mp hp
    apply suStep_isSome
    · exact sumU_isSome m _ _ _ k j (fun i hi => hu r1 h1 k j i hkj.2 hi)
    · exact sumU_isSome m _ _ _ k j (fun i hi => hu r2 h2 k j i hkj.2 hi)
  obtain ⟨d, hd⟩ := Option.isSome_iff_exists.mp hbuild
  have hbigm : (bigMConstrs m d).isSome := by
    rw [bigMConstrs]
    have hblocks : (omap (fun j => do
        let inner ← omap (fun k => do
          let ex ← d (0, k, j)
          let ey ← d (1, k, j)
          pure (bigMPair m ex ey j k)) (List.range m.K)
        pure inner.flatten) (List.range m.P)).isSome := by
      apply omap_isSome
      intro j hj
      have hinner : (omap (fun k => do
          let ex ← d (0, k, j)
          let ey ← d (1, k, j)
          pure (bigMPair m ex ey j k)) (List.range m.K)).isSome := by
        apply omap_isSome
        intro k hk
        obtain ⟨ex, ey, _, _, hx0, hx1⟩ :=
          buildSU_some m _ _ _ _ d hd k j (List.mem_range.mp hk)
            (List.mem_range.mp hj)
        rw [hx0]
        simp only [obind_some]
        rw [hx1]
        rfl
      obtain ⟨inner, hi⟩ := Option.isSome_iff_exists.mp hinner
      rw [hi]
      rfl
    obtain ⟨blocks, hb⟩ := Option.isSome_iff_exists.mp hblocks
    rw [hb]
    rfl
  obtain ⟨bigm, hbm⟩ := Option.isSome_iff_exists.mp hbigm
  rw [fit, hguard]
  simp only [obind_some]
  rw [hd]
  simp only [obind_some]
  rw [hbm]
  rfl

/-- Any call whose data has fewer rows than `P` or fewer columns than `n`
(on either argument) makes `fit` raise: some in-range loop index `(k, j)`
with `k < K`, `j < P` reads an out-of-bounds entry. -/
theorem fit_none_of_small (m : TwoClustersMIP) (X Y : NPMat)
    (hK : 1 ≤ m.K) (hP : 1 ≤ m.P) (hn : 1 ≤ m.n)
    (hsmall : X.rows < m.P ∨ X.cols < m.n ∨ Y.rows < m.P ∨ Y.cols < m.n) :
    fit m X Y = none := by
  by_cases hc : X.cols = Y.cols
  case neg =>
    apply fit_none_of_guard
    rw [npConcatGuard, if_neg hc]
  case pos =>
    have hzero : (0 : Nat) ∈ List.range m.n := List.mem_range.mpr hn
    rcases hsmall with h | h | h | h
    · apply fit_none_of_buildSU
      apply buildSU_none_left m X Y _ _ 0 X.rows
        ((mem_pairsKP m.K m.P 0 X.rows).mpr ⟨hK, h⟩)
      apply sumU_none m X _ _ 0 X.rows 0 hzero
      apply u_i_none_oob
      rw [NPMat.get?, if_neg]
      intro hcon
      exact absurd hcon.1 (lt_irrefl X.rows)
    · apply fit_none_of_buildSU
      apply buildSU_none_left m X Y _ _ 0 0
        ((mem_pairsKP m.K m.P 0 0).mpr ⟨hK, hP⟩)
      apply sumU_none m X _ _ 0 0 X.cols (List.mem_range.mpr h)
      apply u_i_none_oob
      rw [NPMat.get?, if_neg]
      intro hcon
      exact absurd hcon.2 (lt_irrefl X.cols)
    · apply fit_none_of_buildSU
      apply buildSU_none_right m X Y _ _ 0 Y.rows
        ((mem_pairsKP m.K m.P 0 Y.rows).mpr ⟨hK, h⟩)
      apply sumU_none m Y _ _ 0 Y.rows 0 hzero
      apply u_i_none_oob
      rw [NPMat.get?, if_neg]
      intro hcon
      exact absurd hcon.1 (lt_irrefl Y.rows)
    · apply fit_none_of_buildSU
      apply buildSU_none_left m X Y _ _ 0 0
        ((mem_pairsKP m.K m.P 0 0).mpr ⟨hK, hP⟩)
      apply sumU_none m X _ _ 0 0 X.cols (List.mem_range.mpr (hc ▸ h))
      apply u_i_none_oob
      rw [NPMat.get?, if_neg]
      intro hcon
      exact absurd hcon.2 (lt_irrefl X.cols)

/-! `np.argmax` lemmas (value maximality, first-index tie-breaking). -/

theorem npArgmax_succ (v : Nat → ℚ) (n : Nat) :
    npArgmax v (n + 1) =
      if v (npArgmax v n) < v n then n else npArgmax v n := by
  rw [npArgmax, npArgmax, List.range_succ, List.foldl_append]
  rfl

theorem npArgmax_lt (v : Nat → ℚ) :
    ∀ (len : Nat), 0 < len → npArgmax v len < len := by
  intro len
  induction len with
  | zero => intro h; exact absurd h (by simp)
  | succ n ih =>
    intro _
    rw [npArgmax_succ]
    by_cases h : v (npArgmax v n) < v n
    · rw [if_pos h]
      omega
    · rw [if_neg h]
      cases Nat.eq_zero_or_pos n with
      | inl h0 =>
        subst h0
        exact Nat.zero_lt_one
      | inr hpos => exact Nat.lt_succ_of_lt (ih hpos)

theorem npArgmax_le (v : Nat → ℚ) :
    ∀ (len k : Nat), k < len → v k ≤ v (npArgmax v len) := by
  intro len
  induction len with
  | zero => intro k hk; exact absurd hk (by simp)
  | succ n ih =>
    intro k hk
    rw [npArgmax_succ]
    by_cases h : v (npArgmax v n) < v n
    · rw [if_pos h]
      rcases Nat.lt_succ_iff_lt_or_eq.mp hk with h2 | h2
      · exact le_of_lt (lt_of_le_of_lt (ih k h2) h)
      · rw [h2]
    · rw [if_neg h]
      rcases Nat.lt_succ_iff_lt_or_eq.mp hk with h2 | h2
      · exact ih k h2
      · rw [h2]
        exact not_lt.mp h

theorem npArgmax_first (v : Nat → ℚ) :
    ∀ (len k : Nat), k < npArgmax v len → v k < v (npArgmax v len) := by
  intro len
  induction len with
  | zero =>
    intro k hk
    exact absurd hk (by simp [npArgmax])
  | succ n ih =>
    intro k hk
    rw [npArgmax_succ] at hk ⊢
    by_cases h : v (npArgmax v n) < v n
    · rw [if_pos h] at hk ⊢
      exact lt_of_le_of_lt (npArgmax_le v n k hk) h
    · rw [if_neg h] at hk ⊢
      exact ih k hk

theorem npArgmax_const (c : ℚ) :
    ∀ (len : Nat), npArgmax (fun _ => c) len = 0 := by
  intro len
  induction len with
  | zero => rfl
  | succ n ih =>
    rw [npArgmax_succ, ih]
    simp

/-- After a successful `fit`, every dictionary read the `predict_utility`
print loop performs succeeds, so `predict_utility` returns the all-zeros
matrix it allocated. -/
theorem predict_utility_zeros (m : TwoClustersMIP) (X Y : NPMat)
    (res : FitResult) (h : fit m X Y = some res) (A : NPMat) :
    predict_utility m res A = some (zeroMat A.rows m.K) := by
  obtain ⟨d, bigm, hd, hbigm, hres⟩ := fit_some_inv m X Y res h
  have hsu : ∀ k j : Nat, k < m.K → j < m.P → (res.su (0, k, j)).isSome := by
    intro k j hk hj
    obtain ⟨ex, ey, _, _, h0, _⟩ := buildSU_some m X Y _ _ d hd k j hk hj
    rw [hres]
    show (d (0, k, j)).isSome
    rw [h0]
    rfl
  rw [predict_utility]
  have houter : (omap (fun k =>
      omap (fun i => omap (fun j => do
        let _ ← res.su (0, k, j)
        pure (Var.u k i 0)) (List.range m.P)) (List.range m.n))
      (List.range m.K)).isSome := by
    apply omap_isSome
    intro k hk
    apply omap_isSome
    intro i _
    apply omap_isSome
    intro j hj
    obtain ⟨x, hx⟩ := Option.isSome_iff_exists.mp
      (hsu k j (List.mem_range.mp hk) (List.mem_range.mp hj))
    rw [hx]
    rfl
  obtain ⟨ls, hls⟩ := Option.isSome_iff_exists.mp houter
  rw [hls]
  rfl

/-- Evaluation of the common big-M left-hand side. -/
theorem bigMLhs_eval (σ : Var → ℚ) (ex ey : Expr) (j : Nat) :
    (bigMLhs ex ey j).eval σ =
      ex.eval σ - σ (Var.sigmaPlusX j) + σ (Var.sigmaMoinsX j) - ey.eval σ
        + σ (Var.sigmaPlusY j) - σ (Var.sigmaMoinsY j) := by
  simp [bigMLhs, Expr.eval]

/-- Membership in the monotonicity block. -/
theorem mem_monoConstrs (m : TwoClustersMIP) (k i l : Nat)
    (hk : k < m.K) (hi : i < m.n) (hl : l < m.L) :
    monoC m k i l ∈ monoConstrs m := by
  rw [monoConstrs]
  refine List.mem_flatMap.mpr ⟨k, List.mem_range.mpr hk, ?_⟩
  refine List.mem_flatMap.mpr ⟨i, List.mem_range.mpr hi, ?_⟩
  exact List.mem_map.mpr ⟨l, List.mem_range.mpr hl, rfl⟩

/-- Membership in the zero-point block. -/
theorem mem_zeroConstrs (m : TwoClustersMIP) (k i : Nat)
    (hk : k < m.K) (hi : i < m.n) :
    zeroC k i ∈ zeroConstrs m := by
  rw [zeroConstrs]
  refine List.mem_flatMap.mpr ⟨k, List.mem_range.mpr hk, ?_⟩
  exact List.mem_map.mpr ⟨i, List.mem_range.mpr hi, rfl⟩

/-- A successful `fit` result holds exactly the five constraint blocks in
source order; membership in any block gives membership in the result. -/
theorem fit_constrs_mem (m : TwoClustersMIP) (X Y : NPMat)
    (res : FitResult) (h : fit m X Y = some res) (c : Constr)
    (hc : c ∈ monoConstrs m ∨ c ∈ zeroConstrs m ∨ c ∈ normConstrs m ∨
      c ∈ coverConstrs m) :
    c ∈ res.constrs := by
  obtain ⟨d, bigm, _, _, hres⟩ := fit_some_inv m X Y res h
  rw [hres]
  show c ∈ bigm ++ monoConstrs m ++ zeroConstrs m ++ normConstrs m
    ++ coverConstrs m
  rcases hc with h1 | h1 | h1 | h1
  · exact List.mem_append_left _ (List.mem_append_left _
      (List.mem_append_left _ (List.mem_append_right _ h1)))
  · exact List.mem_append_left _ (List.mem_append_left _
      (List.mem_append_right _ h1))
  · exact List.mem_append_left _ (List.mem_append_right _ h1)
  · exact List.mem_append_right _ h1

/-- C8: for every cluster `k` and feature `i`, `fit` adds the zero-point
constraint `u[k][i][0] = 0`; for every `l < L` it adds the
strict-monotonicity constraint `u[k][i][l+1] - u[k][i][l] >= epsilon`; and
for every pair `j` it adds the coverage constraint
`sum_k binary[j][k] >= 1`. -/
theorem tcm_C8 (m : TwoClustersMIP) (X Y : NPMat) (res : FitResult)
    (h : fit m X Y = some res) :
    (∀ k i l : Nat, k < m.K → i < m.n → l < m.L →
      monoC m k i l ∈ res.constrs ∧
      ∀ σ : Var → ℚ, (monoC m k i l).holds σ ↔
        m.epsilon ≤ σ (Var.u k i (l + 1)) - σ (Var.u k i l)) ∧
    (∀ k i : Nat, k < m.K → i < m.n →
      zeroC k i ∈ res.constrs ∧
      ∀ σ : Var → ℚ, (zeroC k i).holds σ ↔ σ (Var.u k i 0) = 0) ∧
    (∀ j : Nat, j < m.P →
      coverC m j ∈ res.constrs ∧
      ∀ σ : Var → ℚ, (coverC m j).holds σ ↔
        1 ≤ ((List.range m.K).map (fun k => σ (Var.binary j k))).sum) := by
  refine ⟨fun k i l hk hi hl => ⟨?_, fun σ => ?_⟩,
    fun k i hk hi => ⟨?_, fun σ => ?_⟩, fun j hj => ⟨?_, fun σ => ?_⟩⟩
  · exact fit_constrs_mem m X Y res h _
      (Or.inl (mem_monoConstrs m k i l hk hi hl))
  · rw [monoC, holds_ge_iff]
    simp [Expr.eval]
  · exact fit_constrs_mem m X Y res h _
      (Or.inr (Or.inl (mem_zeroConstrs m k i hk hi)))
  · rw [zeroC, holds_eq_iff]
    simp [Expr.eval]
  · exact fit_constrs_mem m X Y res h _
      (Or.inr (Or.inr (Or.inr (List.mem_map.mpr
        ⟨j, List.mem_range.mpr hj, rfl⟩))))
  · rw [coverC, holds_ge_iff, quicksum_eval]
    simp [Expr.eval, List.map_map, Function.comp_def]

/-- C8 witness: on a concrete small state and data, the three constraint
kinds are present in the fitted model. -/
theorem tcm_C8_witness :
    monoC mS 0 0 0 ∈ ((fit mS XS XS).getD dfltRes).constrs ∧
    zeroC 0 0 ∈ ((fit mS XS XS).getD dfltRes).constrs ∧
    coverC mS 0 ∈ ((fit mS XS XS).getD dfltRes).constrs := by
  have h : fit mS XS XS = some ((fit mS XS XS).getD dfltRes) := rfl
  have hall := tcm_C8 mS XS XS _ h
  exact ⟨(hall.1 0 0 0 (by decide) (by decide) (by decide)).1,
    (hall.2.1 0 0 (by decide) (by decide)).1,
    (hall.2.2 0 (by decide)).1⟩

/-- C2 (amended): for every cluster `k`, `fit` adds exactly one
normalisation constraint, and it states that the sum over the `n` features
of the *second-to-last* marginal-utility variable `u[k][i][L-1]` equals 1
(the source indexes `self.criteria[k][i][self.L-1]`, not the last
breakpoint `L`). -/
theorem tcm_C2 (m : TwoClustersMIP) (X Y : NPMat) (res : FitResult)
    (h : fit m X Y = some res) (k : Nat) (hk : k < m.K) :
    (normConstrs m).length = m.K ∧
    (normConstrs m)[k]? = some (normC m k) ∧
    normC m k ∈ res.constrs ∧
    ∀ σ : Var → ℚ, (normC m k).holds σ ↔
      ((List.range m.n).map (fun i => σ (Var.u k i (m.L - 1)))).sum = 1 := by
  refine ⟨by simp [normConstrs], ?_, ?_, fun σ => ?_⟩
  · simp [normConstrs, List.getElem?_map, List.getElem?_range, hk]
  · exact fit_constrs_mem m X Y res h _
      (Or.inr (Or.inr (Or.inl (List.mem_map.mpr
        ⟨k, List.mem_range.mpr hk, rfl⟩))))
  · rw [normC, holds_eq_iff, quicksum_eval]
    simp [Expr.eval, List.map_map, Function.comp_def]

/-- C2 witness: on a concrete small state and data, the cluster-0
normalisation constraint is present and characterised. -/
theorem tcm_C2_witness :
    (normConstrs mS)[0]? = some (normC mS 0) ∧
    normC mS 0 ∈ ((fit mS XS XS).getD dfltRes).constrs := by
  have h : fit mS XS XS = some ((fit mS XS XS).getD dfltRes) := rfl
  have hall := tcm_C2 mS XS XS _ h 0 (by decide)
  exact ⟨hall.2.1, hall.2.2.1⟩

/-- C2 counterexample: at the constructed state
`TwoClustersMIP(n_pieces=5, n_clusters=2)` (so `L = 5`, `n = 4`), the
cluster-0 normalisation constraint `fit` adds is satisfied by the
assignment `sig2` (`u[0][i][4] = 1/4`, all else 0), although
`sum_i u[0][i][L] = sum_i u[0][i][5] = 0 ≠ 1` under `sig2`: the added
constraint is not the claimed `sum_i u[k][i][L] = 1`. -/
theorem tcm_C2_counterexample :
    (normConstrs m5)[0]? = some (normC m5 0) ∧
    (normC m5 0).holds sig2 ∧
    ((List.range 4).map (fun i => sig2 (Var.u 0 i 5))).sum ≠ 1 := by
  refine ⟨rfl, ?_, ?_⟩
  · rw [normC, holds_eq_iff, quicksum_eval]
    simp only [List.map_map]
    show ((List.range m5.n).map
      (fun i => Expr.eval sig2 (Expr.var (Var.u 0 i (m5.L - 1))))).sum
        = Expr.eval sig2 (Expr.const 1)
    norm_num [List.range_succ, Expr.eval, sig2, m5, TwoClustersMIP.init]
  · norm_num [List.range_succ, sig2]

/-- C3 (amended): for every pair `j` and cluster `k`, `fit` adds the two
big-M inequalities `expr >= -M*(1 - binary[j][k])` and
`expr <= M*binary[j][k] - epsilon`, where
`expr = utilX - utilY - (sigma_plus_x[j] - sigma_moins_x[j]) + (sigma_plus_y[j] - sigma_moins_y[j])`:
the X-slack pair enters with sign `-(sigma_plus_x - sigma_moins_x)` and
the Y-slack pair with sign `+(sigma_plus_y - sigma_moins_y)` — the
opposite of the claimed signs. -/
theorem tcm_C3 (m : TwoClustersMIP) (X Y : NPMat) (res : FitResult)
    (h : fit m X Y = some res) (j k : Nat) (hj : j < m.P) (hk : k < m.K) :
    (res.su (0, k, j)).isSome = true ∧ (res.su (1, k, j)).isSome = true ∧
    Constr.mk (bigMLhs (suX res k j) (suY res k j) j) Cmp.ge
      (Expr.mul (Expr.const (-m.M))
        (Expr.sub (Expr.const 1) (Expr.var (Var.binary j k))))
      ∈ res.constrs ∧
    Constr.mk (bigMLhs (suX res k j) (suY res k j) j) Cmp.le
      (Expr.sub (Expr.mul (Expr.const m.M) (Expr.var (Var.binary j k)))
        (Expr.const m.epsilon)) ∈ res.constrs ∧
    (∀ σ : Var → ℚ,
      (Constr.mk (bigMLhs (suX res k j) (suY res k j) j) Cmp.ge
        (Expr.mul (Expr.const (-m.M))
          (Expr.sub (Expr.const 1) (Expr.var (Var.binary j k))))).holds σ ↔
        -m.M * (1 - σ (Var.binary j k)) ≤
          (suX res k j).eval σ - (suY res k j).eval σ
            - (σ (Var.sigmaPlusX j) - σ (Var.sigmaMoinsX j))
            + (σ (Var.sigmaPlusY j) - σ (Var.sigmaMoinsY j))) ∧
    (∀ σ : Var → ℚ,
      (Constr.mk (bigMLhs (suX res k j) (suY res k j) j) Cmp.le
        (Expr.sub (Expr.mul (Expr.const m.M) (Expr.var (Var.binary j k)))
          (Expr.const m.epsilon))).holds σ ↔
        (suX res k j).eval σ - (suY res k j).eval σ
            - (σ (Var.sigmaPlusX j) - σ (Var.sigmaMoinsX j))
            + (σ (Var.sigmaPlusY j) - σ (Var.sigmaMoinsY j)) ≤
          m.M * σ (Var.binary j k) - m.epsilon) := by
  obtain ⟨d, bigm, hd, hbigm, hres⟩ := fit_some_inv m X Y res h
  obtain ⟨ex, ey, hex, hey, hmem⟩ := bigMConstrs_mem m d bigm hbigm j k hj hk
  have hsu0 : res.su (0, k, j) = some ex := by
    rw [hres]
    exact hex
  have hsu1 : res.su (1, k, j) = some ey := by
    rw [hres]
    exact hey
  have hgx : suX res k j = ex := by
    rw [suX, hsu0]
    rfl
  have hgy : suY res k j = ey := by
    rw [suY, hsu1]
    rfl
  have hmem1 : Constr.mk (bigMLhs ex ey j) Cmp.ge
      (Expr.mul (Expr.const (-m.M))
        (Expr.sub (Expr.const 1) (Expr.var (Var.binary j k))))
      ∈ bigMPair m ex ey j k := by
    rw [bigMPair]
    exact List.mem_cons_self _ _
  have hmem2 : Constr.mk (bigMLhs ex ey j) Cmp.le
      (Expr.sub (Expr.mul (Expr.const m.M) (Expr.var (Var.binary j k)))
        (Expr.const m.epsilon)) ∈ bigMPair m ex ey j k := by
    rw [bigMPair]
    exact List.mem_cons_of_mem _ (List.mem_cons_self _ _)
  have hup : ∀ c : Constr, c ∈ bigm → c ∈ res.constrs := by
    intro c hc
    rw [hres]
    show c ∈ bigm ++ monoConstrs m ++ zeroConstrs m ++ normConstrs m
      ++ coverConstrs m
    exact List.mem_append_left _ (List.mem_append_left _
      (List.mem_append_left _ (List.mem_append_left _ hc)))
  refine ⟨by rw [hsu0]; rfl, by rw [hsu1]; rfl, ?_, ?_, fun σ => ?_, fun σ => ?_⟩
  · rw [hgx, hgy]
    exact hup _ (hmem _ hmem1)
  · rw [hgx, hgy]
    exact hup _ (hmem _ hmem2)
  · rw [holds_ge_iff, bigMLhs_eval]
    simp only [Expr.eval]
    constructor <;> intro hle <;> linarith
  · rw [holds_le_iff, bigMLhs_eval]
    simp only [Expr.eval]
    constructor <;> intro hle <;> linarith

/-- C3 witness: on a concrete small state and data, the two big-M
constraints for pair 0 and cluster 0 are present in the fitted model. -/
theorem tcm_C3_witness :
    Constr.mk (bigMLhs (suX ((fit mS XS XS).getD dfltRes) 0 0)
        (suY ((fit mS XS XS).getD dfltRes) 0 0) 0) Cmp.ge
      (Expr.mul (Expr.const (-mS.M))
        (Expr.sub (Expr.const 1) (Expr.var (Var.binary 0 0))))
      ∈ ((fit mS XS XS).getD dfltRes).constrs ∧
    Constr.mk (bigMLhs (suX ((fit mS XS XS).getD dfltRes) 0 0)
        (suY ((fit mS XS XS).getD dfltRes) 0 0) 0) Cmp.le
      (Expr.sub (Expr.mul (Expr.const mS.M) (Expr.var (Var.binary 0 0)))
        (Expr.const mS.epsilon))
      ∈ ((fit mS XS XS).getD dfltRes).constrs := by
  have h : fit mS XS XS = some ((fit mS XS XS).getD dfltRes) := rfl
  have hall := tcm_C3 mS XS XS _ h 0 0 (by decide) (by decide)
  exact ⟨hall.2.2.1, hall.2.2.2.1⟩

/-- C3 counterexample: at the constructed state
`TwoClustersMIP(n_pieces=5, n_clusters=2)`, take the big-M pair built for
`j = 0`, `k = 0` with `utilX = utilY = exC3` (the shape `fit` produces on
pooled-constant data), and the assignment `sig3`
(`sigma_plus_x[0] = 5`, `binary[0][0] = 1`, all else 0).  The actually
added `>=`-constraint is violated and the `<=`-constraint satisfied
(`[false, true]`), while the claimed inequalities — with
`expr = utilX - utilY + (sigma_plus_x - sigma_moins_x) - (sigma_plus_y - sigma_moins_y)`
— behave the opposite way: the claimed `>=` holds and the claimed `<=`
fails.  The added constraints are therefore not the claimed ones. -/
theorem tcm_C3_counterexample :
    ((bigMPair m5 exC3 exC3 0 0).map (Constr.sat sig3)) = [false, true] ∧
    (-m5.M * (1 - sig3 (Var.binary 0 0)) ≤
      exC3.eval sig3 - exC3.eval sig3
        + (sig3 (Var.sigmaPlusX 0) - sig3 (Var.sigmaMoinsX 0))
        - (sig3 (Var.sigmaPlusY 0) - sig3 (Var.sigmaMoinsY 0))) ∧
    ¬(exC3.eval sig3 - exC3.eval sig3
        + (sig3 (Var.sigmaPlusX 0) - sig3 (Var.sigmaMoinsX 0))
        - (sig3 (Var.sigmaPlusY 0) - sig3 (Var.sigmaMoinsY 0)) ≤
      m5.M * sig3 (Var.binary 0 0) - m5.epsilon) := by
  have hex : exC3.eval sig3 = 0 := by
    rw [exC3, quicksum_eval]
    norm_num [List.range_succ, Expr.eval, sig3]
  have hM : m5.M = 5 := rfl
  have heps : m5.epsilon = 1/1000 := rfl
  refine ⟨?_, ?_, ?_⟩
  · rw [bigMPair]
    simp only [List.map_cons, List.map_nil, List.cons.injEq, and_true]
    constructor
    · rw [Constr.sat]
      simp only [decide_eq_false_iff_not]
      rw [bigMLhs_eval, hex]
      simp only [Expr.eval]
      norm_num [sig3, hM]
    · rw [Constr.sat]
      simp only [decide_eq_true_eq]
      rw [bigMLhs_eval, hex]
      simp only [Expr.eval]
      norm_num [sig3, hM, heps]
  · rw [hex, hM]
    norm_num [sig3]
  · rw [hex, hM, heps]
    norm_num [sig3]

/-- C4: after any successful `fit`, `predict_utility` returns the all-zeros
matrix of shape `(n_samples, K)` for every input (its loop only prints and
never writes `decision_function`); consequently `predict_preference` on the
resulting zero utility matrices is all-zeros and `predict_cluster` returns
cluster index 0 for every sample. -/
theorem tcm_C4 (m : TwoClustersMIP) (X Y : NPMat) (res : FitResult)
    (h : fit m X Y = some res) :
    (∀ A : NPMat, predict_utility m res A = some (zeroMat A.rows m.K)) ∧
    (∀ r c j k : Nat,
      (predict_preference_mat (zeroMat r m.K) (zeroMat c m.K)).entry j k
        = 0) ∧
    (∀ r c j : Nat,
      predict_cluster_mat (zeroMat r m.K) (zeroMat c m.K) j = 0) := by
  refine ⟨fun A => predict_utility_zeros m X Y res h A,
    fun r c j k => ?_, fun r c j => ?_⟩
  · show (if 0 < (zeroMat r m.K).entry j k - (zeroMat c m.K).entry j k
      then (1:ℚ) else 0) = 0
    norm_num [zeroMat]
  · show npArgmax
      (fun k => (zeroMat r m.K).entry j k - (zeroMat c m.K).entry j k)
      (zeroMat r m.K).cols = 0
    exact npArgmax_const ((0:ℚ) - 0) (zeroMat r m.K).cols

/-- C4 witness: concrete small state, fitted on concrete data. -/
theorem tcm_C4_witness :
    predict_utility mS ((fit mS XS XS).getD dfltRes) XS
      = some (zeroMat XS.rows mS.K) ∧
    (predict_preference_mat (zeroMat 1 mS.K) (zeroMat 1 mS.K)).entry 0 0
      = 0 ∧
    predict_cluster_mat (zeroMat 1 mS.K) (zeroMat 1 mS.K) 0 = 0 := by
  have h : fit mS XS XS = some ((fit mS XS XS).getD dfltRes) := rfl
  have hall := tcm_C4 mS XS XS _ h
  exact ⟨hall.1 XS, hall.2.1 1 1 0 0, hall.2.2 1 1 0⟩

/-- C5: code bug evidence — on an input where every feature is degenerate
(`max_i == min_i` for all `i`: 2000-by-4 all-zeros matrices), `fit` for the
constructed state `TwoClustersMIP(5, 2)` completes without raising any
error: because every value equals the pooled maximum, each `u_i` returns
the last breakpoint variable and the division-by-zero path is never
reached, contradicting the claimed distinguished degenerate-feature
error. -/
theorem tcm_C5 :
    (∀ i : Nat, colMax X5 X5 i = colMin X5 X5 i) ∧
    (fit m5 X5 X5).isSome = true := by
  constructor
  · intro i
    rw [X5, colMax_const, colMin_const]
  · exact fit_const_isSome m5 2000 2000 4 0 (by decide) (by decide)
      (by decide) (by decide)

/-- C6: code bug evidence — `fit` for the constructed state
`TwoClustersMIP(5, 2)` on X with 2500 rows and Y with 2000 rows
(mismatched sample counts) performs no input validation and completes
normally, contradicting the claimed fail-fast validation error. -/
theorem tcm_C6 :
    X6.rows ≠ Y6.rows ∧ (fit m5 X6 Y6).isSome = true := by
  constructor
  · decide
  · exact fit_const_isSome m5 2500 2000 4 0 (by decide) (by decide)
      (by decide) (by decide)

/-- C7: `TwoClustersMIP.__init__` fixes `P = 2000` and `n = 4` regardless
of its arguments, and `fit` indexes its inputs over these constants: any
call (with at least one cluster) whose `X` or `Y` has fewer than 2000 rows
or fewer than 4 columns hits an out-of-bounds access and cannot complete
normally. -/
theorem tcm_C7 (npc kc : Nat) (X Y : NPMat) (hk : 1 ≤ kc)
    (hsh : X.rows < 2000 ∨ X.cols < 4 ∨ Y.rows < 2000 ∨ Y.cols < 4) :
    (TwoClustersMIP.init npc kc).P = 2000 ∧
    (TwoClustersMIP.init npc kc).n = 4 ∧
    fit (TwoClustersMIP.init npc kc) X Y = none := by
  refine ⟨rfl, rfl, ?_⟩
  exact fit_none_of_small (TwoClustersMIP.init npc kc) X Y hk
    (by show (1:Nat) ≤ 2000; decide) (by show (1:Nat) ≤ 4; decide) hsh

/-- C7 witness: a 1-by-4 data matrix (fewer than 2000 rows) makes `fit`
fail. -/
theorem tcm_C7_witness :
    (TwoClustersMIP.init 5 2).P = 2000 ∧
    (TwoClustersMIP.init 5 2).n = 4 ∧
    fit (TwoClustersMIP.init 5 2) X7 X7 = none :=
  tcm_C7 5 2 X7 X7 (by decide) (Or.inl (by decide))

/-- C9: when a feature value equals the pooled observed maximum of its
feature, the per-feature utility expression `u_i` builds is the last
breakpoint variable `u[k][i][L]` directly (Python index `-1`), with no
interpolation. -/
theorem tcm_C9 (m : TwoClustersMIP) (X Y A : NPMat) (j i k : Nat) (x : ℚ)
    (hx : A.get? j i = some x) (hi : i < A.cols)
    (hmx : x = colMax X Y i) :
    u_i m A.cols (colMin X Y) (colMax X Y) A j i k
      = some (Expr.var (Var.u k i m.L)) :=
  u_i_max m A.cols (colMin X Y) (colMax X Y) A j i k x hx hi hmx

/-- C9 witness: a 1-by-1 matrix with single value 3 (its own pooled
maximum) yields the last breakpoint variable `u[0][0][5]` for `L = 5`. -/
theorem tcm_C9_witness :
    u_i m5 A9.cols (colMin A9 A9) (colMax A9 A9) A9 0 0 0
      = some (Expr.var (Var.u 0 0 5)) := by
  have hget : A9.get? 0 0 = some 3 := by
    rw [NPMat.get?, if_pos]
    · rfl
    · exact ⟨Nat.zero_lt_one, Nat.zero_lt_one⟩
  have hmax : (3:ℚ) = colMax A9 A9 0 := by
    rw [A9]
    exact (colMax_const 1 1 1 3 0).symm
  exact tcm_C9 m5 A9 A9 A9 0 0 0 3 hget Nat.zero_lt_one hmax

/-- C10: `predict_cluster` returns, per sample, the index of the cluster
with maximal utility margin `predict_utility(X) - predict_utility(Y)`;
on ties the lowest index wins (strictly smaller margins before the
returned index); in the concrete scenario margin 3/10 for cluster 0 and
1/10 for cluster 1, the result is 0. -/
theorem tcm_C10 :
    (∀ (pu : NPMat → NPMat) (X Y : NPMat) (j : Nat), 0 < (pu X).cols →
      predict_cluster pu X Y j < (pu X).cols ∧
      (∀ k : Nat, k < (pu X).cols →
        (pu X).entry j k - (pu Y).entry j k ≤
          (pu X).entry j (predict_cluster pu X Y j)
            - (pu Y).entry j (predict_cluster pu X Y j)) ∧
      (∀ k : Nat, k < predict_cluster pu X Y j →
        (pu X).entry j k - (pu Y).entry j k <
          (pu X).entry j (predict_cluster pu X Y j)
            - (pu Y).entry j (predict_cluster pu X Y j))) ∧
    (∀ (pu : NPMat → NPMat) (X Y : NPMat) (j : Nat),
      (pu X).cols = 2 →
      (pu X).entry j 0 - (pu Y).entry j 0 = 3/10 →
      (pu X).entry j 1 - (pu Y).entry j 1 = 1/10 →
      predict_cluster pu X Y j = 0) := by
  constructor
  · intro pu X Y j hc
    refine ⟨?_, fun k hk => ?_, fun k hk => ?_⟩
    · exact npArgmax_lt (fun k => (pu X).entry j k - (pu Y).entry j k)
        ((pu X).cols) hc
    · exact npArgmax_le (fun k => (pu X).entry j k - (pu Y).entry j k)
        ((pu X).cols) k hk
    · exact npArgmax_first (fun k => (pu X).entry j k - (pu Y).entry j k)
        ((pu X).cols) k hk
  · intro pu X Y j hc h0 h1
    show npArgmax (fun k => (pu X).entry j k - (pu Y).entry j k)
      (pu X).cols = 0
    rw [hc]
    have hm1 : npArgmax
        (fun k => (pu X).entry j k - (pu Y).entry j k) 1 = 0 := by
      rw [npArgmax_succ]
      simp [npArgmax]
    rw [npArgmax_succ, hm1]
    rw [if_neg]
    show ¬((pu X).entry j 0 - (pu Y).entry j 0 <
      (pu X).entry j 1 - (pu Y).entry j 1)
    rw [h0, h1]
    norm_num

/-- C10 witness: the concrete scenario — margins 3/10 (cluster 0) and
1/10 (cluster 1) — returns cluster 0, and the returned index is in
range. -/
theorem tcm_C10_witness :
    predict_cluster pu10 X10 Y10 0 = 0 ∧
    predict_cluster pu10 X10 Y10 0 < (pu10 X10).cols := by
  constructor
  · exact tcm_C10.2 pu10 X10 Y10 0 rfl
      (by simp [pu10, X10, Y10, constMat])
      (by simp [pu10, X10, Y10, constMat])
  · exact (tcm_C10.1 pu10 X10 Y10 0 (by simp [pu10])).1

/-- C1: code bug evidence — for interior feature value `x = X[0,0] = 0`
(pooled min 0, max 1, `L = 2`, so segment `l = 0`, breakpoints `x_0 = 0`,
`x_1 = 1/2`, ratio `t = 0`), the expression the source builds
(`(u_l + t)*(u_{l+1} - u_l)`, source line 231) evaluates under
`u[0][0][0] = 1/2`, `u[0][0][1] = 1` to `1/4`, whereas the claimed
interpolation `u_l + t*(u_{l+1} - u_l)` evaluates to `1/2`: the source
misplaces a parenthesis (which additionally makes the expression
quadratic in the decision variables). -/
theorem tcm_C1_code_bug :
    (u_i m2 X1.cols (colMin X1 Y1) (colMax X1 Y1) X1 0 0 0).map
        (fun e => e.eval sig1) = some (1/4) ∧
    specInterp (sig1 (Var.u 0 0 0)) (sig1 (Var.u 0 0 1)) 0
      (xl m2 (colMin X1 Y1 0) (colMax X1 Y1 0) 0)
      (xl m2 (colMin X1 Y1 0) (colMax X1 Y1 0) 1) = 1/2 ∧
    (1/4 : ℚ) ≠ 1/2 := by
  have hs0 : sig1 (Var.u 0 0 0) = 1/2 := rfl
  have hs1 : sig1 (Var.u 0 0 1) = 1 := rfl
  have hL2 : m2.L = 2 := rfl
  have hmin : colMin X1 Y1 0 = 0 := by
    rw [colMin]
    norm_num [List.range_succ, pooledEntry, X1, Y1, constMat]
  have hmax : colMax X1 Y1 0 = 1 := by
    rw [colMax]
    norm_num [List.range_succ, pooledEntry, X1, Y1, constMat]
  have hget : X1.get? 0 0 = some 0 := rfl
  have hli : li m2 (colMin X1 Y1 0) (colMax X1 Y1 0) 0 = 0 := by
    rw [li, hmin, hmax]
    have harg : ((m2.L : ℚ) * ((0:ℚ) - 0) / (1 - 0)) = 0 := by norm_num
    rw [harg, Int.floor_zero]
  have hx0 : xl m2 (colMin X1 Y1 0) (colMax X1 Y1 0) 0 = 0 := by
    rw [xl, hmin, hmax]
    norm_num
  have hx1 : xl m2 (colMin X1 Y1 0) (colMax X1 Y1 0) 1 = 1/2 := by
    rw [xl, hmin, hmax]
    norm_num [hL2]
  have hE := u_i_interior m2 X1.cols (colMin X1 Y1) (colMax X1 Y1) X1
    0 0 0 0 hget (by decide)
    (by rw [hmax]; norm_num)
    (by rw [hmax, hmin]; norm_num)
    (by decide)
    (by rw [hli])
    (by rw [hli, hL2]; decide)
  rw [hE]
  simp only [Option.map_some', hli]
  refine ⟨?_, ?_, by norm_num⟩
  · simp only [Expr.eval]
    norm_num [hx0, hx1, hs0, hs1]
  · rw [specInterp, hx0, hx1, hs0, hs1]
    norm_num

end Models
